import Mathlib

/-!
Verification of the kube-dethrottler tainting control loop.

The Go sources are shallowly embedded as pure Lean functions:

* `internal/load/load.go` — `NormalizeLoadAverages` (float64 values are
  modelled as rationals; only order comparisons and division by the core
  count occur, so ℚ reflects the source logic exactly for finite inputs).
* `internal/controller/controller.go` — the startup reconciliation
  (`Run`, lines 52-62), the per-tick state machine (`checkLoadAndTaint`)
  and the shutdown path (`Run`, lines 69-83).  Wall-clock instants are
  modelled as integers; a tick reads one instant `now` that stands for
  the (sub-millisecond-apart) `time.Now()` calls of one tick.  The taint
  store is external, so each embedded operation returns the list of store
  calls it issues, and the success of the single call a tick can make is
  an input (`storeErr`).
* the two variants of the kubernetes client found in the repository:
  the get-modify-update client (namespace `ClientUpdate`) and the
  JSON-patch client (namespace `ClientPatch`).  Both are modelled at the
  level of the node taint list: each operation maps the taint list it
  reads to an optional written list (`none` when the operation makes no
  write).
-/

namespace KubeDethrottler

/-- Load averages record; `float64` fields are modelled as rationals. -/
structure Averages where
  load1m : ℚ
  load5m : ℚ
  load15m : ℚ
deriving DecidableEq

/-- Per-period thresholds from the configuration; value 0 disables a period. -/
structure Thresholds where
  load1m : ℚ
  load5m : ℚ
  load15m : ℚ
deriving DecidableEq

/-- NormalizeLoadAverages from internal/load/load.go: divide each figure by
the core count unless the core count is nonpositive, in which case the raw
averages pass through unchanged. -/
def NormalizeLoadAverages (avg : Averages) (cpuCount : ℤ) : Averages :=
  if cpuCount ≤ 0 then avg
  else
    { load1m := avg.load1m / (cpuCount : ℚ)
      load5m := avg.load5m / (cpuCount : ℚ)
      load15m := avg.load15m / (cpuCount : ℚ) }

/-- Configuration fields consumed by the controller core. -/
structure Config where
  nodeName : String
  taintKey : String
  taintEffect : String
  cooldownPeriod : ℤ
  thresholds : Thresholds
deriving DecidableEq

/-- Mutable controller fields (`tainted`, `lastTaintTime`) of the
Controller struct in internal/controller/controller.go.  The Go zero value
of `time.Time` is modelled as the integer 0. -/
structure ControllerState where
  tainted : Bool
  lastTaintTime : ℤ
deriving DecidableEq

/-- Context a store call is issued with: the cancellable context threaded
through `Run` and `checkLoadAndTaint`, or the detached
`context.Background()` used by the shutdown path. -/
inductive Ctx
  | run
  | background
deriving DecidableEq

/-- One call to the taint store (the kubernetes client interface). -/
inductive StoreCall
  | hasTaint (ctx : Ctx) (nodeName taintKey taintEffect : String)
  | applyTaint (ctx : Ctx) (nodeName taintKey taintValue taintEffect : String)
  | removeTaint (ctx : Ctx) (nodeName taintKey taintEffect : String)
deriving DecidableEq

/-- The 1m check from controller.go line 102: the threshold is positive and
the normalized 1m figure strictly exceeds it. -/
def exceeded1m (th : Thresholds) (l : Averages) : Bool :=
  decide (0 < th.load1m) && decide (th.load1m < l.load1m)

/-- The 5m check from controller.go line 106. -/
def exceeded5m (th : Thresholds) (l : Averages) : Bool :=
  decide (0 < th.load5m) && decide (th.load5m < l.load5m)

/-- The 15m check from controller.go line 110. -/
def exceeded15m (th : Thresholds) (l : Averages) : Bool :=
  decide (0 < th.load15m) && decide (th.load15m < l.load15m)

/-- The `exceeded` flag of controller.go lines 101-113: it starts false and
is set by any of the three period checks, i.e. it is their disjunction. -/
def evaluate (th : Thresholds) (l : Averages) : Bool :=
  exceeded1m th l || exceeded5m th l || exceeded15m th l

/-- One poll tick, checkLoadAndTaint from controller.go lines 90-151.
Inputs: the configuration, the core count, the state before the tick, the
tick instant `now`, the result of ReadLoadAvg (`none` on read error), and
whether the single store call the tick can make fails.  Output: the state
after the tick and the store calls issued during it. -/
def checkLoadAndTaint (cfg : Config) (cpuCount : ℤ) (s : ControllerState)
    (now : ℤ) (readResult : Option Averages) (storeErr : Bool) :
    ControllerState × List StoreCall :=
  match readResult with
  | none => (s, [])
  | some rawAverages =>
    let normalizedAverages := NormalizeLoadAverages rawAverages cpuCount
    let exceeded := evaluate cfg.thresholds normalizedAverages
    if exceeded then
      if !s.tainted then
        let call := StoreCall.applyTaint Ctx.run cfg.nodeName cfg.taintKey
          "high-load" cfg.taintEffect
        if storeErr then (s, [call])
        else ({ tainted := true, lastTaintTime := now }, [call])
      else
        ({ s with lastTaintTime := now }, [])
    else
      if s.tainted then
        if cfg.cooldownPeriod ≤ now - s.lastTaintTime then
          let call := StoreCall.removeTaint Ctx.run cfg.nodeName cfg.taintKey
            cfg.taintEffect
          if storeErr then (s, [call])
          else ({ s with tainted := false }, [call])
        else (s, [])
      else (s, [])

/-- Inputs of one poll tick. -/
structure TickInput where
  now : ℤ
  readResult : Option Averages
  storeErr : Bool
deriving DecidableEq

/-- A run of consecutive poll ticks: fold checkLoadAndTaint over the tick
inputs, collecting the issued store calls in order. -/
def runTicks (cfg : Config) (cpuCount : ℤ) (s : ControllerState) :
    List TickInput → ControllerState × List StoreCall
  | [] => (s, [])
  | i :: rest =>
    let step := checkLoadAndTaint cfg cpuCount s i.now i.readResult i.storeErr
    let tail := runTicks cfg cpuCount step.1 rest
    (tail.1, step.2 ++ tail.2)

/-- Initial state built by NewController (controller.go lines 27-35):
not tainted, `lastTaintTime` at its zero value. -/
def NewController : ControllerState := { tainted := false, lastTaintTime := 0 }

/-- Startup reconciliation, Run from controller.go lines 47-62: fatal
(`none`) when no node name is configured; otherwise one HasTaint query is
issued.  On query error the controller falls back to not-tainted; on a
positive answer it seeds `tainted := true, lastTaintTime := now`; on a
negative answer it stays not-tainted. -/
def runStartup (cfg : Config) (hasTaintResult : Except String Bool)
    (now : ℤ) : Option (ControllerState × List StoreCall) :=
  if cfg.nodeName = "" then none
  else
    let call := StoreCall.hasTaint Ctx.run cfg.nodeName cfg.taintKey cfg.taintEffect
    match hasTaintResult with
    | Except.error _ => some ({ NewController with tainted := false }, [call])
    | Except.ok existingTaint =>
      if existingTaint then
        some ({ tainted := true, lastTaintTime := now }, [call])
      else
        some ({ NewController with tainted := existingTaint }, [call])

/-- Shutdown path, Run from controller.go lines 69-83: when tainted, one
best-effort RemoveTaint is issued with the detached `context.Background()`
and the loop returns whether or not it succeeds (the call list does not
depend on the call outcome, so there is no retry); when not tainted, no
store call is made. -/
def runShutdown (cfg : Config) (s : ControllerState) : List StoreCall :=
  if s.tainted then
    [StoreCall.removeTaint Ctx.background cfg.nodeName cfg.taintKey cfg.taintEffect]
  else []

/-- One taint on a node; the kubernetes TaintEffect is a string type. -/
structure Taint where
  key : String
  value : String
  effect : String
deriving DecidableEq

/-- HasTaint of both client variants: some taint on the node matches both
the given key and the given effect. -/
def hasTaint (taints : List Taint) (taintKey taintEffect : String) : Bool :=
  taints.any (fun t => t.key == taintKey && t.effect == taintEffect)

namespace ClientUpdate

/-- ApplyTaint of the get-modify-update client variant, at the level of the
node taint list: the already-present scan compares only the key of each
existing taint; when no key matches, a taint with the literal value "true"
is appended and the resulting list is written (`some`), otherwise no write
happens (`none`).  The `taintValue` parameter is accepted but not used by
this variant. -/
def applyTaintWrite (taints : List Taint)
    (taintKey taintValue effect : String) : Option (List Taint) :=
  let taintFound := taints.any (fun t => t.key == taintKey)
  if taintFound then none
  else
    let _ := taintValue
    some (taints ++ [{ key := taintKey, value := "true", effect := effect }])

/-- RemoveTaint of the get-modify-update client variant: keep every taint
that does not match the given key and effect; write the filtered list only
when a matching taint was present. -/
def removeTaintWrite (taints : List Taint)
    (taintKey taintEffect : String) : Option (List Taint) :=
  let newTaints := taints.filter
    (fun t => !(t.key == taintKey && t.effect == taintEffect))
  let taintFound := taints.any
    (fun t => t.key == taintKey && t.effect == taintEffect)
  if taintFound then some newTaints else none

end ClientUpdate

namespace ClientPatch

/-- ApplyTaint of the JSON-patch client variant, at the level of the node
taint list: every existing taint matching the given key and effect is
replaced by the new taint (carrying the passed value), the rest are kept;
when no existing taint matched, the new taint is appended; the resulting
list is always written via a patch. -/
def applyTaintWrite (taints : List Taint)
    (taintKey taintValue taintEffect : String) : List Taint :=
  let taint : Taint := { key := taintKey, value := taintValue, effect := taintEffect }
  let newTaints := taints.map
    (fun t => if t.key == taintKey && t.effect == taintEffect then taint else t)
  let taintExists := taints.any
    (fun t => t.key == taintKey && t.effect == taintEffect)
  if taintExists then newTaints else newTaints ++ [taint]

/-- RemoveTaint of the JSON-patch client variant: keep every taint that
does not match the given key and effect; when no taint matched, return
with no write (`none`), otherwise patch the filtered list. -/
def removeTaintWrite (taints : List Taint)
    (taintKey taintEffect : String) : Option (List Taint) :=
  let newTaints := taints.filter
    (fun t => !(t.key == taintKey && t.effect == taintEffect))
  let taintFound := taints.any
    (fun t => t.key == taintKey && t.effect == taintEffect)
  if taintFound then some newTaints else none

end ClientPatch

/-- Claim C9: a period is marked exceeded iff its threshold is nonzero (thresholds
are nonnegative, so nonzero means positive) and the normalized value is
strictly greater; the overloaded verdict is the disjunction of the three
period flags; with all three thresholds zero the verdict is false for every
load triple. -/
theorem evaluate_strict_and_disjunction (th : Thresholds) (l : Averages) :
    (exceeded1m th l = true ↔ 0 < th.load1m ∧ th.load1m < l.load1m)
    ∧ (exceeded5m th l = true ↔ 0 < th.load5m ∧ th.load5m < l.load5m)
    ∧ (exceeded15m th l = true ↔ 0 < th.load15m ∧ th.load15m < l.load15m)
    ∧ evaluate th l = (exceeded1m th l || exceeded5m th l || exceeded15m th l)
    ∧ evaluate { load1m := 0, load5m := 0, load15m := 0 } l = false := by
  refine ⟨?_, ?_, ?_, rfl, ?_⟩
  · simp [exceeded1m]
  · simp [exceeded5m]
  · simp [exceeded15m]
  · simp [evaluate, exceeded1m, exceeded5m, exceeded15m]

/-- Example configuration used by concrete witnesses: one active period
(1m threshold 2.0), cooldown 5 instants. -/
def cfgEx : Config :=
  { nodeName := "node-1"
    taintKey := "dethrottler/high-load"
    taintEffect := "NoSchedule"
    cooldownPeriod := 5
    thresholds := { load1m := 2, load5m := 0, load15m := 0 } }

/-- Example raw averages exceeding the 1m threshold on 4 cores (9/4 > 2). -/
def rawHot : Averages := { load1m := 9, load5m := 0, load15m := 0 }

/-- Example raw averages below every threshold. -/
def rawCool : Averages := { load1m := 0, load5m := 0, load15m := 0 }

/-- Helper: a tick taken in the tainted state under an overloaded verdict
issues no store call and moves `lastTaintTime` to the tick instant. -/
theorem checkLoadAndTaint_tainted_overloaded (cfg : Config) (cpuCount : ℤ)
    (s : ControllerState) (now : ℤ) (raw : Averages) (storeErr : Bool)
    (hs : s.tainted = true)
    (hov : evaluate cfg.thresholds (NormalizeLoadAverages raw cpuCount) = true) :
    checkLoadAndTaint cfg cpuCount s now (some raw) storeErr =
      ({ tainted := true, lastTaintTime := now }, []) := by
  obtain ⟨st, lt⟩ := s
  dsimp only at hs
  subst hs
  simp [checkLoadAndTaint, hov]

/-- Claim C1: on every tick taken in the Tainted state with an overloaded
verdict, no taint-store call is issued and `lastTaintTime` is set to the
tick instant; consequently, along any run of consecutive ticks that all
report overloaded=true starting from Tainted, the call trace is empty (in
particular no RemoveTaint occurs) and after each tick `lastTaintTime`
equals that tick's instant. -/
theorem noFlap_run (cfg : Config) (cpuCount : ℤ) (s : ControllerState)
    (inputs : List TickInput)
    (hs : s.tainted = true)
    (hov : ∀ i ∈ inputs, ∃ raw, i.readResult = some raw ∧
      evaluate cfg.thresholds (NormalizeLoadAverages raw cpuCount) = true) :
    (runTicks cfg cpuCount s inputs).2 = []
    ∧ (runTicks cfg cpuCount s inputs).1.tainted = true
    ∧ ∀ k : Fin inputs.length,
        (runTicks cfg cpuCount s (inputs.take (k.1 + 1))).1 =
          { tainted := true, lastTaintTime := (inputs.get k).now } := by
  induction inputs generalizing s with
  | nil =>
    exact ⟨rfl, hs, fun k => absurd k.2 (by simp)⟩
  | cons i rest ih =>
    obtain ⟨raw, hread, hev⟩ := hov i (List.mem_cons_self i rest)
    have hstep : checkLoadAndTaint cfg cpuCount s i.now i.readResult i.storeErr =
        ({ tainted := true, lastTaintTime := i.now }, []) := by
      rw [hread]
      exact checkLoadAndTaint_tainted_overloaded cfg cpuCount s i.now raw i.storeErr hs hev
    have hrest := ih { tainted := true, lastTaintTime := i.now } rfl
      (fun j hj => hov j (List.mem_cons_of_mem i hj))
    refine ⟨?_, ?_, ?_⟩
    · simp [runTicks, hstep, hrest.1]
    · simp [runTicks, hstep, hrest.2.1]
    · intro k
      match k with
      | ⟨0, hk⟩ =>
        simp [runTicks, hstep]
      | ⟨j + 1, hk⟩ =>
        have hj := hrest.2.2 ⟨j, by simpa using hk⟩
        simpa [runTicks, hstep, List.take_succ_cons] using hj

/-- Claim C1 witness: a concrete two-tick overloaded run from the Tainted
state makes no store call and ends with lastTaintTime at the last tick
instant. -/
theorem noFlap_run_witness :
    (runTicks cfgEx 0 { tainted := true, lastTaintTime := 0 }
        [⟨1, some rawHot, false⟩, ⟨2, some rawHot, false⟩]).2 = []
    ∧ (runTicks cfgEx 0 { tainted := true, lastTaintTime := 0 }
        ([⟨1, some rawHot, false⟩, ⟨2, some rawHot, false⟩].take 2)).1 =
      { tainted := true, lastTaintTime := 2 } := by
  have h := noFlap_run cfgEx 0 { tainted := true, lastTaintTime := 0 }
    [⟨1, some rawHot, false⟩, ⟨2, some rawHot, false⟩] rfl
    (by
      intro i hi
      have hcases : i = (⟨1, some rawHot, false⟩ : TickInput)
          ∨ i = (⟨2, some rawHot, false⟩ : TickInput) := by
        simpa using hi
      rcases hcases with h | h <;> subst h <;> exact ⟨rawHot, rfl, by decide⟩)
  exact ⟨h.1, h.2.2 ⟨1, by decide⟩⟩

/-- Claim C2: on a tick taken in the Tainted state with a calm verdict,
removal triggers exactly when the cooldown has elapsed, with the boundary
(now - lastTaintTime equal to cooldownPeriod) included: then one
RemoveTaint is issued and on success only the tainted flag is cleared;
strictly inside the cooldown no store call is made and the state is
unchanged. -/
theorem cooldown_boundary (cfg : Config) (cpuCount : ℤ) (s : ControllerState)
    (now : ℤ) (raw : Averages) (storeErr : Bool)
    (hs : s.tainted = true)
    (hcalm : evaluate cfg.thresholds (NormalizeLoadAverages raw cpuCount) = false) :
    (cfg.cooldownPeriod ≤ now - s.lastTaintTime →
      (checkLoadAndTaint cfg cpuCount s now (some raw) storeErr).2 =
        [StoreCall.removeTaint Ctx.run cfg.nodeName cfg.taintKey cfg.taintEffect]
      ∧ (storeErr = false →
          (checkLoadAndTaint cfg cpuCount s now (some raw) storeErr).1 =
            { s with tainted := false }))
    ∧ (now - s.lastTaintTime < cfg.cooldownPeriod →
        checkLoadAndTaint cfg cpuCount s now (some raw) storeErr = (s, [])) := by
  obtain ⟨st, lt⟩ := s
  dsimp only at hs
  subst hs
  constructor
  · intro hcd
    constructor
    · cases storeErr <;> simp [checkLoadAndTaint, hcalm, hcd]
    · intro herr
      subst herr
      simp [checkLoadAndTaint, hcalm, hcd]
  · intro hcd
    simp [checkLoadAndTaint, hcalm, not_le.mpr hcd]

/-- Claim C2 witness: at the exact cooldown boundary (cooldownPeriod 5,
lastTaintTime 0, now 5) with a calm verdict, the tick issues RemoveTaint
and clears the tainted flag. -/
theorem cooldown_boundary_witness :
    (checkLoadAndTaint cfgEx 0 { tainted := true, lastTaintTime := 0 } 5
        (some rawCool) false).2 =
      [StoreCall.removeTaint Ctx.run "node-1" "dethrottler/high-load" "NoSchedule"]
    ∧ (checkLoadAndTaint cfgEx 0 { tainted := true, lastTaintTime := 0 } 5
        (some rawCool) false).1 = { tainted := false, lastTaintTime := 0 } := by
  have h := (cooldown_boundary cfgEx 0 { tainted := true, lastTaintTime := 0 } 5
    rawCool false rfl (by decide)).1 (by decide)
  exact ⟨h.1, h.2 rfl⟩

/-- Claim C3: whenever a tick issues a store call and that call fails, the
controller state after the tick equals the state before it, so the same
action is retried on the next tick. -/
theorem store_error_state_unchanged (cfg : Config) (cpuCount : ℤ)
    (s : ControllerState) (now : ℤ) (readResult : Option Averages)
    (hcall : (checkLoadAndTaint cfg cpuCount s now readResult true).2 ≠ []) :
    (checkLoadAndTaint cfg cpuCount s now readResult true).1 = s := by
  cases readResult with
  | none => rfl
  | some raw =>
    simp only [checkLoadAndTaint] at hcall ⊢
    split_ifs at hcall ⊢ <;> first | rfl | exact absurd rfl hcall

/-- Claim C3 witness: a failing ApplyTaint on an overloaded tick from the
Clean state leaves the state unchanged. -/
theorem store_error_state_unchanged_witness :
    (checkLoadAndTaint cfgEx 0 { tainted := false, lastTaintTime := 0 } 7
        (some rawHot) true).1 = { tainted := false, lastTaintTime := 0 } :=
  store_error_state_unchanged cfgEx 0 { tainted := false, lastTaintTime := 0 } 7
    (some rawHot) (by decide)

/-- Claim C4: with a configured node name, startup issues exactly one
HasTaint query and no ApplyTaint or RemoveTaint call; a positive answer
seeds tainted=true with lastTaintTime=now, a negative answer leaves
tainted=false, and a query error falls back to tainted=false without
aborting. -/
theorem startup_reconciliation (cfg : Config) (res : Except String Bool)
    (now : ℤ) (hn : cfg.nodeName ≠ "") :
    ∃ st, runStartup cfg res now =
        some (st, [StoreCall.hasTaint Ctx.run cfg.nodeName cfg.taintKey cfg.taintEffect])
      ∧ (res = Except.ok true → st = { tainted := true, lastTaintTime := now })
      ∧ (res = Except.ok false → st.tainted = false)
      ∧ (∀ e, res = Except.error e → st.tainted = false) := by
  cases res with
  | error e =>
    refine ⟨{ NewController with tainted := false }, ?_, ?_, ?_, ?_⟩
    · simp [runStartup, hn]
    · intro h; cases h
    · intro h; cases h
    · intro e h; rfl
  | ok b =>
    cases b with
    | true =>
      refine ⟨{ tainted := true, lastTaintTime := now }, ?_, fun _ => rfl, ?_, ?_⟩
      · simp [runStartup, hn]
      · intro h; cases h
      · intro e h; cases h
    | false =>
      refine ⟨{ NewController with tainted := false }, ?_, ?_, fun _ => rfl, ?_⟩
      · simp [runStartup, hn, NewController]
      · intro h; cases h
      · intro e h; cases h

/-- Claim C4 witness: with the taint found at startup, the reconciliation
issues the single HasTaint query and seeds tainted=true with
lastTaintTime at the startup instant. -/
theorem startup_reconciliation_witness :
    runStartup cfgEx (Except.ok true) 3 =
      some ({ tainted := true, lastTaintTime := 3 },
        [StoreCall.hasTaint Ctx.run "node-1" "dethrottler/high-load" "NoSchedule"]) := by
  obtain ⟨st, heq, hok, -, -⟩ := startup_reconciliation cfgEx (Except.ok true) 3 (by decide)
  rw [heq, hok rfl]
  rfl

/-- Claim C8: on shutdown, a tainted controller issues exactly one
RemoveTaint carrying the detached background context (not the cancellable
run context), and the call trace does not depend on the call outcome (no
retry); a clean controller issues no store call. -/
theorem shutdown_detached_remove (cfg : Config) (s : ControllerState) :
    (s.tainted = true → runShutdown cfg s =
      [StoreCall.removeTaint Ctx.background cfg.nodeName cfg.taintKey cfg.taintEffect])
    ∧ (s.tainted = false → runShutdown cfg s = []) := by
  constructor <;> intro h <;> simp [runShutdown, h]

/-- Claim C8 witness: the shutdown of a tainted controller issues the
single background-context RemoveTaint. -/
theorem shutdown_detached_remove_witness :
    runShutdown cfgEx { tainted := true, lastTaintTime := 9 } =
      [StoreCall.removeTaint Ctx.background "node-1" "dethrottler/high-load"
        "NoSchedule"] :=
  (shutdown_detached_remove cfgEx { tainted := true, lastTaintTime := 9 }).1 rfl

/-- Helper: one tick preserves any predicate P as an invariant of the form
"tainted implies P lastTaintTime", provided P holds at the tick instant.
Every branch of checkLoadAndTaint either keeps the state, sets
lastTaintTime to the tick instant, or clears the tainted flag. -/
theorem checkLoadAndTaint_taintTime_inv (P : ℤ → Prop) (cfg : Config)
    (cpuCount : ℤ) (s : ControllerState) (now : ℤ)
    (readResult : Option Averages) (storeErr : Bool)
    (hs : s.tainted = true → P s.lastTaintTime) (hnow : P now) :
    (checkLoadAndTaint cfg cpuCount s now readResult storeErr).1.tainted = true →
      P (checkLoadAndTaint cfg cpuCount s now readResult storeErr).1.lastTaintTime := by
  obtain ⟨st, lt⟩ := s
  cases readResult with
  | none => exact hs
  | some raw =>
    simp only [checkLoadAndTaint]
    split_ifs <;> intro h <;>
      first
        | exact hnow
        | exact hs h
        | cases h

/-- Helper: a run of ticks preserves the same invariant, provided P holds
at every tick instant of the run. -/
theorem runTicks_taintTime_inv (P : ℤ → Prop) (cfg : Config) (cpuCount : ℤ) :
    ∀ (inputs : List TickInput) (s : ControllerState),
      (s.tainted = true → P s.lastTaintTime) → (∀ i ∈ inputs, P i.now) →
      (runTicks cfg cpuCount s inputs).1.tainted = true →
        P (runTicks cfg cpuCount s inputs).1.lastTaintTime
  | [], _, hs, _ => hs
  | i :: rest, s, hs, hins => by
    have h1 := checkLoadAndTaint_taintTime_inv P cfg cpuCount s i.now
      i.readResult i.storeErr hs (hins i (List.mem_cons_self i rest))
    have h2 := runTicks_taintTime_inv P cfg cpuCount rest
      (checkLoadAndTaint cfg cpuCount s i.now i.readResult i.storeErr).1 h1
      (fun j hj => hins j (List.mem_cons_of_mem i hj))
    simpa [runTicks] using h2

/-- Claim C10: in every state reachable through startup reconciliation
followed by any run of poll ticks, a set tainted flag implies that
lastTaintTime is the wall-clock instant of one of the transitions taken so
far (the startup instant or some tick instant); in particular, when all
those instants are positive it is never the zero value of the unset
timestamp, so the cooldown comparison never runs against an unset
timestamp. -/
theorem tainted_time_assigned (cfg : Config) (cpuCount now0 : ℤ)
    (res : Except String Bool) (inputs : List TickInput)
    (st0 : ControllerState) (calls0 : List StoreCall)
    (hstart : runStartup cfg res now0 = some (st0, calls0))
    (h0 : 0 < now0) (hpos : ∀ i ∈ inputs, 0 < i.now) :
    (runTicks cfg cpuCount st0 inputs).1.tainted = true →
      (runTicks cfg cpuCount st0 inputs).1.lastTaintTime
          ∈ now0 :: inputs.map TickInput.now
      ∧ 0 < (runTicks cfg cpuCount st0 inputs).1.lastTaintTime := by
  have hseed : st0.tainted = true → st0.lastTaintTime = now0 := by
    unfold runStartup at hstart
    split_ifs at hstart
    cases res with
    | error e =>
      simp only [Option.some.injEq, Prod.mk.injEq] at hstart
      rw [← hstart.1]
      intro h
      cases h
    | ok b =>
      cases b with
      | true =>
        simp only [if_true, reduceIte, Option.some.injEq, Prod.mk.injEq] at hstart
        rw [← hstart.1]
        intro _
        rfl
      | false =>
        simp only [Bool.false_eq_true, if_false, Option.some.injEq,
          Prod.mk.injEq] at hstart
        rw [← hstart.1]
        intro h
        cases h
  exact runTicks_taintTime_inv
    (fun t => t ∈ now0 :: inputs.map TickInput.now ∧ 0 < t) cfg cpuCount inputs st0
    (fun ht => by rw [hseed ht]; exact ⟨List.mem_cons_self _ _, h0⟩)
    (fun i hi => ⟨List.mem_cons_of_mem _ (List.mem_map_of_mem _ hi), hpos i hi⟩)

/-- Claim C10 witness: after a startup that found the taint at instant 3
and one overloaded tick at instant 4, the tainted state carries a
lastTaintTime that is one of those two instants and is positive. -/
theorem tainted_time_assigned_witness :
    (runTicks cfgEx 0 { tainted := true, lastTaintTime := 3 }
        [⟨4, some rawHot, false⟩]).1.lastTaintTime
      ∈ (3 : ℤ) :: [(⟨4, some rawHot, false⟩ : TickInput)].map TickInput.now
    ∧ 0 < (runTicks cfgEx 0 { tainted := true, lastTaintTime := 3 }
        [⟨4, some rawHot, false⟩]).1.lastTaintTime :=
  tainted_time_assigned cfgEx 0 3 (Except.ok true) [⟨4, some rawHot, false⟩]
    { tainted := true, lastTaintTime := 3 }
    [StoreCall.hasTaint Ctx.run "node-1" "dethrottler/high-load" "NoSchedule"]
    (by decide) (by decide) (by decide) (by decide)

/-- Matching predicate of the managed taint identity: key and effect. -/
def matchesManaged (taintKey taintEffect : String) (t : Taint) : Bool :=
  t.key == taintKey && t.effect == taintEffect

/-- Claim C7: every list a store write sends is computed from the taint
list read within the same operation, with every taint whose key or effect
differs from the managed identity preserved (same multiset, same order:
the sublists of non-matching taints coincide) and every written taint
either pre-existing or the managed one.  The JSON-patch ApplyTaint always
writes, its RemoveTaint and both operations of the get-modify-update
client write the filtered or extended list only when something changed. -/
theorem write_frame (taints : List Taint) (k v e : String) :
    ((ClientPatch.applyTaintWrite taints k v e).filter
        (fun t => !matchesManaged k e t)
      = taints.filter (fun t => !matchesManaged k e t)
      ∧ ∀ t ∈ ClientPatch.applyTaintWrite taints k v e,
          t ∈ taints ∨ t = { key := k, value := v, effect := e })
    ∧ (∀ w ∈ ClientPatch.removeTaintWrite taints k e,
        w = taints.filter (fun t => !matchesManaged k e t))
    ∧ (∀ w ∈ ClientUpdate.applyTaintWrite taints k v e,
        w.filter (fun t => !matchesManaged k e t)
          = taints.filter (fun t => !matchesManaged k e t)
        ∧ ∀ t ∈ w, t ∈ taints ∨ t = { key := k, value := "true", effect := e })
    ∧ (∀ w ∈ ClientUpdate.removeTaintWrite taints k e,
        w = taints.filter (fun t => !matchesManaged k e t)) := by
  have hqnew : (!matchesManaged k e ({ key := k, value := v, effect := e } : Taint))
      = false := by
    simp [matchesManaged]
  have hqtrue : (!matchesManaged k e ({ key := k, value := "true", effect := e } : Taint))
      = false := by
    simp [matchesManaged]
  have hmap : ∀ ts : List Taint,
      (ts.map (fun t => if t.key == k && t.effect == e then
          ({ key := k, value := v, effect := e } : Taint) else t)).filter
        (fun t => !matchesManaged k e t)
        = ts.filter (fun t => !matchesManaged k e t) := by
    intro ts
    induction ts with
    | nil => rfl
    | cons a ts ih =>
      rw [List.map_cons]
      by_cases ha : (a.key == k && a.effect == e) = true
      · have hqa : (!matchesManaged k e a) = false := by
          simp only [matchesManaged, ha, Bool.not_true]
        rw [if_pos ha, List.filter_cons, List.filter_cons, hqnew, hqa]
        simpa using ih
      · have hqa : (!matchesManaged k e a) = true := by
          simp only [matchesManaged, Bool.not_eq_true', ← Bool.not_eq_true]
          exact ha
        rw [if_neg ha, List.filter_cons, List.filter_cons, hqa]
        simpa using ih
  refine ⟨⟨?_, ?_⟩, ?_, ?_, ?_⟩
  · simp only [ClientPatch.applyTaintWrite]
    by_cases hex : (taints.any (fun t => t.key == k && t.effect == e)) = true
    · rw [if_pos hex]
      exact hmap taints
    · rw [if_neg hex, List.filter_append, hmap taints, List.filter_cons, hqnew]
      simp
  · intro t ht
    simp only [ClientPatch.applyTaintWrite] at ht
    by_cases hex : (taints.any (fun t => t.key == k && t.effect == e)) = true
    · rw [if_pos hex] at ht
      obtain ⟨a, ha, hat⟩ := List.mem_map.mp ht
      by_cases hm : (a.key == k && a.effect == e) = true
      · rw [if_pos hm] at hat
        exact Or.inr hat.symm
      · rw [if_neg hm] at hat
        exact Or.inl (hat ▸ ha)
    · rw [if_neg hex, List.mem_append] at ht
      rcases ht with ht | ht
      · obtain ⟨a, ha, hat⟩ := List.mem_map.mp ht
        by_cases hm : (a.key == k && a.effect == e) = true
        · rw [if_pos hm] at hat
          exact Or.inr hat.symm
        · rw [if_neg hm] at hat
          exact Or.inl (hat ▸ ha)
      · exact Or.inr (List.mem_singleton.mp ht)
  · intro w hw
    simp only [ClientPatch.removeTaintWrite] at hw
    by_cases hf : (taints.any (fun t => t.key == k && t.effect == e)) = true
    · rw [if_pos hf, Option.mem_def, Option.some_inj] at hw
      rw [← hw]
      rfl
    · rw [if_neg hf] at hw
      simp at hw
  · intro w hw
    simp only [ClientUpdate.applyTaintWrite] at hw
    by_cases hf : (taints.any (fun t => t.key == k)) = true
    · rw [if_pos hf] at hw
      simp at hw
    · rw [if_neg hf, Option.mem_def, Option.some_inj] at hw
      rw [← hw]
      constructor
      · rw [List.filter_append, List.filter_cons, hqtrue]
        simp
      · intro t ht
        rcases List.mem_append.mp ht with ht | ht
        · exact Or.inl ht
        · exact Or.inr (List.mem_singleton.mp ht)
  · intro w hw
    simp only [ClientUpdate.removeTaintWrite] at hw
    by_cases hf : (taints.any (fun t => t.key == k && t.effect == e)) = true
    · rw [if_pos hf, Option.mem_def, Option.some_inj] at hw
      rw [← hw]
      rfl
    · rw [if_neg hf] at hw
      simp at hw

/-- Concrete taint list for the frame witness: the managed taint plus an
unrelated one. -/
def ts0 : List Taint :=
  [{ key := "k", value := "old", effect := "NoSchedule" },
   { key := "other", value := "x", effect := "NoExecute" }]

/-- Claim C7 witness: on a node carrying the managed taint and an
unrelated taint, the JSON-patch ApplyTaint write preserves the unrelated
taint and the get-modify-update RemoveTaint write is exactly the read list
with the managed entry filtered out. -/
theorem write_frame_witness :
    (ClientPatch.applyTaintWrite ts0 "k" "high-load" "NoSchedule").filter
        (fun t => !matchesManaged "k" "NoSchedule" t)
      = ts0.filter (fun t => !matchesManaged "k" "NoSchedule" t)
    ∧ [({ key := "other", value := "x", effect := "NoExecute" } : Taint)]
      = ts0.filter (fun t => !matchesManaged "k" "NoSchedule" t) := by
  have h := write_frame ts0 "k" "high-load" "NoSchedule"
  exact ⟨h.1.1, h.2.2.2 [{ key := "other", value := "x", effect := "NoExecute" }]
    (by decide)⟩

/-- Claim C5 (refuting evaluation): the already-present scan of the
get-modify-update ApplyTaint compares only keys, so on a node whose only
taint shares the managed key but carries a different effect it makes no
write at all — even though no existing taint matches both key and effect,
as witnessed by HasTaint of the same client answering false and by the
JSON-patch ApplyTaint of the other variant adding the managed taint on the
same input. -/
theorem applyTaint_identity_ignores_effect :
    ClientUpdate.applyTaintWrite
      [{ key := "dethrottler/high-load", value := "x", effect := "NoExecute" }]
      "dethrottler/high-load" "high-load" "NoSchedule" = none
    ∧ hasTaint
      [{ key := "dethrottler/high-load", value := "x", effect := "NoExecute" }]
      "dethrottler/high-load" "NoSchedule" = false
    ∧ ClientPatch.applyTaintWrite
      [{ key := "dethrottler/high-load", value := "x", effect := "NoExecute" }]
      "dethrottler/high-load" "high-load" "NoSchedule" =
      [{ key := "dethrottler/high-load", value := "x", effect := "NoExecute" },
       { key := "dethrottler/high-load", value := "high-load",
         effect := "NoSchedule" }] := by
  refine ⟨rfl, rfl, rfl⟩

/-- Claim C6 (refuting evaluation): the state machine does pass the
literal "high-load" as the taint value on an apply transition, but the
get-modify-update ApplyTaint ignores the passed value and writes a taint
carrying the literal "true" instead, so a taint this controller causes to
exist through that client does not carry "high-load". -/
theorem applyTaint_value_not_passed :
    (checkLoadAndTaint cfgEx 0 { tainted := false, lastTaintTime := 0 } 1
        (some rawHot) false).2
      = [StoreCall.applyTaint Ctx.run "node-1" "dethrottler/high-load"
          "high-load" "NoSchedule"]
    ∧ ClientUpdate.applyTaintWrite [] "dethrottler/high-load" "high-load"
        "NoSchedule"
      = some [{ key := "dethrottler/high-load", value := "true",
                effect := "NoSchedule" }] := by
  refine ⟨by decide, rfl⟩

end KubeDethrottler
